import Mathlib

/-
  Verification development for the mass-spring-damper simulation core:
  a shallow embedding of the RK4 integrator, the forcing-function library
  and the stateful MassSpringSystem wrapper, followed by theorems about
  the behaviour of those definitions.

  Numbers are modelled as real numbers.  The few places where the
  JavaScript source can divide by zero (quality factor, damping ratio,
  natural period) are modelled with an explicit value type JVal that
  distinguishes finite numbers, the two infinities and NaN, mirroring
  IEEE-754 semantics of division for finite operands.
-/

namespace MassSpring

noncomputable section

/-- Result of a JavaScript floating-point division: a finite number,
positive or negative infinity, or NaN. -/
inductive JVal where
  | num : ℝ → JVal
  | posInf : JVal
  | negInf : JVal
  | nan : JVal
deriving DecidableEq

/-- JavaScript division of two finite reals: ordinary division when the
divisor is nonzero, otherwise a signed infinity (or NaN for 0/0). -/
def jsDiv (a b : ℝ) : JVal :=
  if b ≠ 0 then .num (a / b)
  else if 0 < a then .posInf
  else if a < 0 then .negInf
  else .nan

/-- Truncation toward zero, as used by the JavaScript remainder operator. -/
def jsTrunc (x : ℝ) : ℤ :=
  if 0 ≤ x then ⌊x⌋ else ⌈x⌉

/-- JavaScript remainder a % b for finite operands and nonzero b:
the result has the sign of the dividend. -/
def jsRem (a b : ℝ) : ℝ :=
  a - b * (jsTrunc (a / b) : ℝ)

/-- Keys of the forcing-function parameter objects. -/
inductive ParamKey where
  | force | amplitude | frequency | stepTime | impulseTime | width
deriving DecidableEq

/-- A JavaScript parameter object: a partial map from keys to numbers. -/
def Params := ParamKey → Option ℝ

/-- The empty parameter object. -/
def noParams : Params := fun _ => none

/-- Shallow merge of two parameter objects, as in the spread
expression that merges defaults with caller overrides: a key present in
the overrides wins, otherwise the default entry (if any) is used. -/
def mergeParams (defaults overrides : Params) : Params := fun key =>
  match overrides key with
  | some v => some v
  | none => defaults key

/-- The catalog of forcing-function presets. -/
inductive FKey where
  | none | constant | sine | cosine | step | square | impulse
deriving DecidableEq

/-- Evaluation of each preset forcing function, translated from
forcingFunctions.js; destructuring defaults of the source functions are
modelled with Option.getD. -/
def applyForcing (key : FKey) (t : ℝ) (p : Params) : ℝ :=
  match key with
  | .none => 0
  | .constant => (p .force).getD 1.0
  | .sine =>
      (p .amplitude).getD 1.0 * Real.sin (2 * Real.pi * (p .frequency).getD 1.0 * t)
  | .cosine =>
      (p .amplitude).getD 1.0 * Real.cos (2 * Real.pi * (p .frequency).getD 1.0 * t)
  | .step =>
      if t ≥ (p .stepTime).getD 0.0 then (p .amplitude).getD 1.0 else 0
  | .square =>
      let period := 1 / (p .frequency).getD 1.0
      let phase := jsRem t period / period
      (p .amplitude).getD 1.0 * (if phase < 0.5 then 1 else -1)
  | .impulse =>
      let impulseTime := (p .impulseTime).getD 0.0
      let width := (p .width).getD 0.01
      if t ≥ impulseTime ∧ t < impulseTime + width
      then (p .amplitude).getD 1.0 / width else 0

/-- Default parameters per preset, translated from the defaultParams
export of forcingFunctions.js. -/
def defaultParams : FKey → Params
  | .none => noParams
  | .constant => fun key => match key with
      | .force => some 1.0
      | _ => none
  | .sine => fun key => match key with
      | .amplitude => some 1.0
      | .frequency => some 1.0
      | _ => none
  | .cosine => fun key => match key with
      | .amplitude => some 1.0
      | .frequency => some 1.0
      | _ => none
  | .step => fun key => match key with
      | .amplitude => some 1.0
      | .stepTime => some 1.0
      | _ => none
  | .square => fun key => match key with
      | .amplitude => some 1.0
      | .frequency => some 1.0
      | _ => none
  | .impulse => fun key => match key with
      | .amplitude => some 1.0
      | .impulseTime => some 1.0
      | .width => some 0.01
      | _ => none

/-- Lookup of an own property of the presets object literal: the seven
catalog keys. -/
def presetLookup (name : String) : Option FKey :=
  if name = "none" then some .none
  else if name = "constant" then some .constant
  else if name = "sine" then some .sine
  else if name = "cosine" then some .cosine
  else if name = "step" then some .step
  else if name = "square" then some .square
  else if name = "impulse" then some .impulse
  else none

/-- The function value stored in the forcingFn field of the system: a
catalog preset, or a member inherited from Object.prototype that the
property read presets[name] finds on the prototype chain. -/
inductive StoredFn where
  | preset (key : FKey)
  | protoFn (name : String)
deriving DecidableEq

/-- Property names the presets object literal inherits from
Object.prototype; reading any of them yields a truthy (function or
object) value, so the guard !presets[name] does not fire for them. -/
def protoProps : List String :=
  ["constructor", "hasOwnProperty", "isPrototypeOf", "propertyIsEnumerable",
   "toLocaleString", "toString", "valueOf",
   "__defineGetter__", "__defineSetter__", "__lookupGetter__", "__lookupSetter__",
   "__proto__"]

/-- The JavaScript property read presets[name]: an own catalog entry
when name is one of the seven keys, an inherited Object.prototype member
when name is on the prototype chain, and undefined (falsy) otherwise. -/
def presetsLookupJs (name : String) : Option StoredFn :=
  match presetLookup name with
  | some key => some (.preset key)
  | none => if name ∈ protoProps then some (.protoFn name) else none

/-- Force value of the stored forcing function: a catalog preset
evaluates its formula.  An inherited Object.prototype member is not a
numeric forcing function: in the source its call result is a string,
boolean or object, and the state computed from it degenerates (NaN for
most members), which has no real-number counterpart; the branch returns
0, and no theorem below depends on that value, since the dynamics are
only ever evaluated under catalog selections. -/
def storedForce (fn : StoredFn) (t : ℝ) (p : Params) : ℝ :=
  match fn with
  | .preset key => applyForcing key t p
  | .protoFn _ => 0

/-- Errors thrown by the physics core. -/
inductive Err where
  | invalidMass
  | invalidDamping
  | invalidSpring
  | unknownForcing (name : String)
deriving DecidableEq

/-- The message carried by each thrown Error, identifying the offending
field or preset name. -/
def errMsg : Err → String
  | .invalidMass => "Mass must be positive"
  | .invalidDamping => "Damping coefficient must be non-negative"
  | .invalidSpring => "Spring constant must be non-negative"
  | .unknownForcing name => "Unknown forcing function: " ++ name

/-- Simulation state: position, velocity and time. -/
structure State where
  y : ℝ
  v : ℝ
  t : ℝ

/-- Derivatives of the two state variables. -/
structure Deriv where
  dydt : ℝ
  dvdt : ℝ

/-- One RK4 integration step, translated from rk4Step in integrators.js. -/
def rk4Step (state : State) (derivativeFn : State → Deriv) (dt : ℝ) : State :=
  let y := state.y
  let v := state.v
  let t := state.t
  let k1 := derivativeFn ⟨y, v, t⟩
  let k2 := derivativeFn ⟨y + 0.5 * k1.dydt * dt, v + 0.5 * k1.dvdt * dt, t + 0.5 * dt⟩
  let k3 := derivativeFn ⟨y + 0.5 * k2.dydt * dt, v + 0.5 * k2.dvdt * dt, t + 0.5 * dt⟩
  let k4 := derivativeFn ⟨y + k3.dydt * dt, v + k3.dvdt * dt, t + dt⟩
  let dydt := (k1.dydt + 2 * k2.dydt + 2 * k3.dydt + k4.dydt) / 6
  let dvdt := (k1.dvdt + 2 * k2.dvdt + 2 * k3.dvdt + k4.dvdt) / 6
  ⟨y + dydt * dt, v + dvdt * dt, t + dt⟩

/-- The MassSpringSystem object: physical parameters, initial conditions,
current state and the forcing selection.  The source stores the selected
function value itself in forcingFn; here that value is represented by
StoredFn (a catalog preset, or an Object.prototype member reached
through the prototype chain), from which the force is recovered by
storedForce. -/
structure System where
  m : ℝ
  b : ℝ
  k : ℝ
  y0 : ℝ
  v0 : ℝ
  state : State
  forcingName : String
  forcingFn : StoredFn
  forcingParams : Params

/-- Constructor configuration object; every field may be omitted. -/
structure Config where
  m : Option ℝ
  b : Option ℝ
  k : Option ℝ
  y0 : Option ℝ
  v0 : Option ℝ

/-- The object built by a successful construction. -/
def mkSystem (m b k y0 v0 : ℝ) : System :=
  { m := m, b := b, k := k, y0 := y0, v0 := v0
    state := ⟨y0, v0, 0.0⟩
    forcingName := "none"
    forcingFn := .preset .none
    forcingParams := noParams }

/-- The MassSpringSystem constructor: applies the destructuring defaults,
validates the parameters in order and either throws or builds the object. -/
def construct (cfg : Config) : Except Err System :=
  let m := cfg.m.getD 1.0
  let b := cfg.b.getD 0.1
  let k := cfg.k.getD 1.0
  let y0 := cfg.y0.getD 1.0
  let v0 := cfg.v0.getD 0.0
  if m ≤ 0 then .error .invalidMass
  else if b < 0 then .error .invalidDamping
  else if k < 0 then .error .invalidSpring
  else .ok (mkSystem m b k y0 v0)

/-- Third stage of setParameters: the springConstant field. -/
def setParamK (sys : System) (pk : Option ℝ) : Option Err × System :=
  match pk with
  | some k => if k < 0 then (some .invalidSpring, sys) else (none, { sys with k := k })
  | none => (none, sys)

/-- Second stage of setParameters: the damping field, then springConstant. -/
def setParamB (sys : System) (pb pk : Option ℝ) : Option Err × System :=
  match pb with
  | some b => if b < 0 then (some .invalidDamping, sys) else setParamK { sys with b := b } pk
  | none => setParamK sys pk

/-- setParameters, translated statement by statement: each supplied field
is validated immediately before its own assignment, in the order mass,
damping, springConstant; a throw aborts the remaining stages but earlier
assignments persist on the returned object. -/
def setParameters (sys : System) (pm pb pk : Option ℝ) : Option Err × System :=
  match pm with
  | some m => if m ≤ 0 then (some .invalidMass, sys) else setParamB { sys with m := m } pb pk
  | none => setParamB sys pb pk

/-- setForcing: throws exactly when the property read presets[name] is
falsy, then replaces the whole selection with the found function value.
For a catalog key the parameters resolve as defaults shallow-merged with
the caller overrides; for an inherited Object.prototype member the
defaultParams read also walks the prototype chain and yields a function,
whose spread contributes no properties, so the resolved parameters are a
shallow copy of just the caller-supplied ones. -/
def setForcing (sys : System) (name : String) (params : Params) : Option Err × System :=
  match presetsLookupJs name with
  | some (.preset key) =>
      (none, { sys with
        forcingName := name
        forcingFn := .preset key
        forcingParams := mergeParams (defaultParams key) params })
  | some (.protoFn pname) =>
      (none, { sys with
        forcingName := name
        forcingFn := .protoFn pname
        forcingParams := params })
  | none => (some (.unknownForcing name), sys)

/-- computeDerivatives: dy/dt = v and dv/dt = (-b*v - k*y + f(t)) / m. -/
def computeDerivatives (sys : System) (state : State) : Deriv :=
  let force := storedForce sys.forcingFn state.t sys.forcingParams
  { dydt := state.v
    dvdt := (-sys.b * state.v - sys.k * state.y + force) / sys.m }

/-- step(dt): advances the internal state by one RK4 step and returns the
updated object together with the snapshot handed back to the caller. -/
def step (sys : System) (dt : ℝ) : System × State :=
  let newState := rk4Step sys.state (fun s => computeDerivatives sys s) dt
  ({ sys with state := newState }, newState)

/-- getState returns (a copy of) the current state. -/
def getState (sys : System) : State := sys.state

/-- getParameters returns the current parameter triple. -/
def getParameters (sys : System) : ℝ × ℝ × ℝ := (sys.m, sys.b, sys.k)

/-- getForcing returns the current forcing name and resolved parameters. -/
def getForcing (sys : System) : String × Params := (sys.forcingName, sys.forcingParams)

/-- reset: restores the state captured at construction, leaving all other
fields untouched. -/
def reset (sys : System) : System :=
  { sys with state := ⟨sys.y0, sys.v0, 0.0⟩ }

/-- Damping regime classification. -/
inductive Regime where
  | underdamped | critical | overdamped
deriving DecidableEq

/-- Derived system properties.  Quantities the source computes by a
division whose divisor can be zero are JVal-valued. -/
structure Props where
  omega0 : ℝ
  f0 : ℝ
  T0 : JVal
  zeta : JVal
  regime : Regime
  omegaD : JVal
  fD : JVal
  Q : JVal

/-- getSystemProperties, translated from the source: natural frequency,
damping ratio, regime from the discriminant with tolerance 1e-10, damped
frequency and quality factor. -/
def getSystemProperties (sys : System) : Props :=
  let m := sys.m
  let b := sys.b
  let k := sys.k
  let omega0 := Real.sqrt (k / m)
  let f0 := omega0 / (2 * Real.pi)
  let T0 := jsDiv 1 f0
  let zeta := jsDiv b (2 * Real.sqrt (m * k))
  let discriminant := b * b - 4 * m * k
  let regime : Regime :=
    if |discriminant| < 1e-10 then .critical
    else if discriminant > 0 then .overdamped
    else .underdamped
  let omegaD : JVal :=
    if regime = .underdamped then
      match zeta with
      | .num z => .num (omega0 * Real.sqrt (1 - z * z))
      | _ => .nan
    else .num 0
  let fD : JVal :=
    match omegaD with
    | .num w => .num (w / (2 * Real.pi))
    | other => other
  let Q := jsDiv (Real.sqrt (m * k)) b
  { omega0 := omega0, f0 := f0, T0 := T0, zeta := zeta
    regime := regime, omegaD := omegaD, fD := fD, Q := Q }

end

end MassSpring

namespace MassSpring

/-- Iterated stepping of a system with a fixed timestep. -/
noncomputable def stepsN (sys : System) (dt : ℝ) : ℕ → System
  | 0 => sys
  | n + 1 => (step (stepsN sys dt n) dt).1

lemma step_fst_fields (sys : System) (dt : ℝ) :
    (step sys dt).1.m = sys.m ∧ (step sys dt).1.b = sys.b ∧ (step sys dt).1.k = sys.k ∧
    (step sys dt).1.y0 = sys.y0 ∧ (step sys dt).1.v0 = sys.v0 ∧
    (step sys dt).1.forcingName = sys.forcingName ∧
    (step sys dt).1.forcingFn = sys.forcingFn ∧
    (step sys dt).1.forcingParams = sys.forcingParams :=
  ⟨rfl, rfl, rfl, rfl, rfl, rfl, rfl, rfl⟩

/-- C4: rk4Step computes exactly the six-stage RK4 formula of the claim:
k1 at the start, k2 and k3 at the midpoint, k4 at the end, the weighted
average (k1 + 2k2 + 2k3 + k4)/6, and the state advanced by dt. -/
theorem rk4Step_formula (y v t : ℝ) (deriv : State → Deriv) (dt : ℝ) :
    rk4Step ⟨y, v, t⟩ deriv dt =
      (let k1 := deriv ⟨y, v, t⟩
       let k2 := deriv ⟨y + dt / 2 * k1.dydt, v + dt / 2 * k1.dvdt, t + dt / 2⟩
       let k3 := deriv ⟨y + dt / 2 * k2.dydt, v + dt / 2 * k2.dvdt, t + dt / 2⟩
       let k4 := deriv ⟨y + dt * k3.dydt, v + dt * k3.dvdt, t + dt⟩
       let combinedDy := (k1.dydt + 2 * k2.dydt + 2 * k3.dydt + k4.dydt) / 6
       let combinedDv := (k1.dvdt + 2 * k2.dvdt + 2 * k3.dvdt + k4.dvdt) / 6
       ⟨y + dt * combinedDy, v + dt * combinedDv, t + dt⟩) := by
  have h1 : ∀ a c : ℝ, a + dt / 2 * c = a + 0.5 * c * dt := fun a c => by ring
  have h2 : t + dt / 2 = t + 0.5 * dt := by ring
  have h3 : ∀ a c : ℝ, a + dt * c = a + c * dt := fun a c => by ring
  simp only [rk4Step, h1, h2, h3]

/-- C3: step(dt) replaces the internal state with the result of one RK4
step of the derivative function f(y, v, t) = (v, (-b*v - k*y + f(t))/m),
the new time is exactly t + dt, the returned snapshot equals the new
internal state (the embedding is value-semantic, so the snapshot is an
independent value whose mutation cannot alias the internal state), and
all non-state fields of the system are unchanged. -/
theorem step_spec (sys : System) (dt : ℝ) :
    (step sys dt).1.state = rk4Step sys.state (fun s => computeDerivatives sys s) dt ∧
    (step sys dt).2 = (step sys dt).1.state ∧
    (step sys dt).2.t = sys.state.t + dt ∧
    (∀ s : State, computeDerivatives sys s =
      ⟨s.v, (-sys.b * s.v - sys.k * s.y +
        storedForce sys.forcingFn s.t sys.forcingParams) / sys.m⟩) ∧
    (step sys dt).1.m = sys.m ∧ (step sys dt).1.b = sys.b ∧ (step sys dt).1.k = sys.k ∧
    (step sys dt).1.y0 = sys.y0 ∧ (step sys dt).1.v0 = sys.v0 ∧
    (step sys dt).1.forcingName = sys.forcingName ∧
    (step sys dt).1.forcingFn = sys.forcingFn ∧
    (step sys dt).1.forcingParams = sys.forcingParams := by
  refine ⟨rfl, rfl, rfl, fun s => rfl, rfl, rfl, rfl, rfl, rfl, rfl, rfl, rfl⟩

/-- C7: reset restores the state to (y0, v0, 0) where y0 and v0 are the
initial conditions captured at construction, and changes nothing else;
moreover the captured initial conditions themselves are preserved by
step, setParameters and setForcing, so this holds after any sequence of
those calls. -/
theorem reset_spec (sys : System) :
    (reset sys).state = ⟨sys.y0, sys.v0, 0⟩ ∧
    getParameters (reset sys) = getParameters sys ∧
    getForcing (reset sys) = getForcing sys ∧
    (reset sys).y0 = sys.y0 ∧ (reset sys).v0 = sys.v0 ∧
    (∀ dt, (step sys dt).1.y0 = sys.y0 ∧ (step sys dt).1.v0 = sys.v0) ∧
    (∀ pm pb pk, (setParameters sys pm pb pk).2.y0 = sys.y0 ∧
      (setParameters sys pm pb pk).2.v0 = sys.v0) ∧
    (∀ name params, (setForcing sys name params).2.y0 = sys.y0 ∧
      (setForcing sys name params).2.v0 = sys.v0) := by
  refine ⟨by norm_num [reset], rfl, rfl, rfl, rfl, fun dt => ⟨rfl, rfl⟩, ?_, ?_⟩
  · intro pm pb pk
    cases pm <;> cases pb <;> cases pk <;>
      simp only [setParameters, setParamB, setParamK] <;>
      (try split_ifs) <;> simp
  · intro name params
    unfold setForcing
    cases hpl : presetsLookupJs name with
    | none => simp
    | some sf => cases sf <;> simp

end MassSpring

namespace MassSpring

/-- C1 counterexample: on the freshly constructed system with parameters
(1, 0.1, 1), the call setParameters {mass := 2, damping := -1} fails with
InvalidParameter for the damping field, yet the stored mass is 2 after
the call although it was 1 before it: a failing call does change a field,
contrary to the claim. -/
theorem setParameters_not_atomic :
    (setParameters (mkSystem 1 0.1 1 1 0) (some 2) (some (-1)) none).1
      = some Err.invalidDamping ∧
    (setParameters (mkSystem 1 0.1 1 1 0) (some 2) (some (-1)) none).2.m = 2 ∧
    (mkSystem 1 0.1 1 1 0).m = 1 ∧ (2 : ℝ) ≠ 1 := by
  refine ⟨?_, ?_, rfl, by norm_num⟩ <;>
    · simp only [setParameters, setParamB, setParamK]
      norm_num

/-- C1 (amended): setParameters processes the fields in the order mass,
damping, springConstant, validating each supplied field immediately
before assigning it.  If every supplied field is valid, exactly the
supplied fields are updated and omitted fields keep their prior values.
If a supplied field is invalid the call raises InvalidParameter there;
supplied valid fields preceding the first invalid one have already been
updated, while the invalid field and everything after it keep their
prior values. -/
theorem setParameters_spec (sys : System) (pm pb pk : Option ℝ) :
    ((∀ m ∈ pm, 0 < m) → (∀ b ∈ pb, 0 ≤ b) → (∀ k ∈ pk, 0 ≤ k) →
      setParameters sys pm pb pk =
        (none, { sys with m := pm.getD sys.m, b := pb.getD sys.b, k := pk.getD sys.k })) ∧
    (∀ m, pm = some m → m ≤ 0 →
      setParameters sys pm pb pk = (some Err.invalidMass, sys)) ∧
    (∀ b, pb = some b → b < 0 → (∀ m ∈ pm, 0 < m) →
      setParameters sys pm pb pk =
        (some Err.invalidDamping, { sys with m := pm.getD sys.m })) ∧
    (∀ k, pk = some k → k < 0 → (∀ m ∈ pm, 0 < m) → (∀ b ∈ pb, 0 ≤ b) →
      setParameters sys pm pb pk =
        (some Err.invalidSpring, { sys with m := pm.getD sys.m, b := pb.getD sys.b })) := by
  refine ⟨?_, ?_, ?_, ?_⟩
  · intro hm hb hk
    cases pm with
    | none =>
      cases pb with
      | none =>
        cases pk with
        | none => simp [setParameters, setParamB, setParamK]
        | some k =>
          have hk0 : 0 ≤ k := hk k rfl
          simp [setParameters, setParamB, setParamK, not_lt.mpr hk0]
      | some b =>
        have hb0 : 0 ≤ b := hb b rfl
        cases pk with
        | none => simp [setParameters, setParamB, setParamK, not_lt.mpr hb0]
        | some k =>
          have hk0 : 0 ≤ k := hk k rfl
          simp [setParameters, setParamB, setParamK, not_lt.mpr hb0, not_lt.mpr hk0]
    | some m =>
      have hm0 : 0 < m := hm m rfl
      cases pb with
      | none =>
        cases pk with
        | none => simp [setParameters, setParamB, setParamK, not_le.mpr hm0]
        | some k =>
          have hk0 : 0 ≤ k := hk k rfl
          simp [setParameters, setParamB, setParamK, not_le.mpr hm0, not_lt.mpr hk0]
      | some b =>
        have hb0 : 0 ≤ b := hb b rfl
        cases pk with
        | none => simp [setParameters, setParamB, setParamK, not_le.mpr hm0, not_lt.mpr hb0]
        | some k =>
          have hk0 : 0 ≤ k := hk k rfl
          simp [setParameters, setParamB, setParamK, not_le.mpr hm0, not_lt.mpr hb0,
            not_lt.mpr hk0]
  · rintro m rfl hm
    simp [setParameters, hm]
  · rintro b rfl hb hm
    cases pm with
    | none => simp [setParameters, setParamB, hb]
    | some m =>
      have hm0 : 0 < m := hm m rfl
      simp [setParameters, setParamB, not_le.mpr hm0, hb]
  · rintro k rfl hk hm hb
    cases pm with
    | none =>
      cases pb with
      | none => simp [setParameters, setParamB, setParamK, hk]
      | some b =>
        have hb0 : 0 ≤ b := hb b rfl
        simp [setParameters, setParamB, setParamK, not_lt.mpr hb0, hk]
    | some m =>
      have hm0 : 0 < m := hm m rfl
      cases pb with
      | none => simp [setParameters, setParamB, setParamK, not_le.mpr hm0, hk]
      | some b =>
        have hb0 : 0 ≤ b := hb b rfl
        simp [setParameters, setParamB, setParamK, not_le.mpr hm0, not_lt.mpr hb0, hk]

/-- C1 witness: a concrete instance of the amended theorem: on the system
with parameters (1, 0.1, 1), setParameters {mass := 2, damping := -1}
fails on the damping field with the mass already updated to 2. -/
theorem setParameters_spec_witness :
    setParameters (mkSystem 1 0.1 1 1 0) (some 2) (some (-1)) none
      = (some Err.invalidDamping, { mkSystem 1 0.1 1 1 0 with m := (2 : ℝ) }) := by
  have h := (setParameters_spec (mkSystem 1 0.1 1 1 0) (some 2) (some (-1)) none).2.2.1
  have h2 := h (-1) rfl (by norm_num) (by
    intro m hm
    have h2 : (2 : ℝ) = m := by simpa using hm
    subst h2
    norm_num)
  simpa using h2

end MassSpring

namespace MassSpring

/-- C6: the constructor raises InvalidParameter exactly when mass <= 0,
damping < 0 or springConstant < 0 (after destructuring defaults), with a
message identifying the offending field; on success the state is
initialized to (y0, v0, 0) and the initial forcing selection is the
preset named none with empty parameters.  The four condition cases are
exhaustive, so together they characterize success and failure. -/
theorem construct_spec (cfg : Config) :
    (cfg.m.getD 1.0 ≤ 0 → construct cfg = .error .invalidMass) ∧
    (0 < cfg.m.getD 1.0 → cfg.b.getD 0.1 < 0 → construct cfg = .error .invalidDamping) ∧
    (0 < cfg.m.getD 1.0 → 0 ≤ cfg.b.getD 0.1 → cfg.k.getD 1.0 < 0 →
      construct cfg = .error .invalidSpring) ∧
    (0 < cfg.m.getD 1.0 → 0 ≤ cfg.b.getD 0.1 → 0 ≤ cfg.k.getD 1.0 →
      construct cfg = .ok (mkSystem (cfg.m.getD 1.0) (cfg.b.getD 0.1) (cfg.k.getD 1.0)
        (cfg.y0.getD 1.0) (cfg.v0.getD 0.0))) ∧
    (∀ m b k y0 v0 : ℝ, (mkSystem m b k y0 v0).state = ⟨y0, v0, 0⟩ ∧
      (mkSystem m b k y0 v0).forcingName = "none" ∧
      (mkSystem m b k y0 v0).forcingFn = StoredFn.preset FKey.none ∧
      (mkSystem m b k y0 v0).forcingParams = noParams) ∧
    errMsg Err.invalidMass = "Mass must be positive" ∧
    errMsg Err.invalidDamping = "Damping coefficient must be non-negative" ∧
    errMsg Err.invalidSpring = "Spring constant must be non-negative" := by
  refine ⟨?_, ?_, ?_, ?_, ?_, rfl, rfl, rfl⟩
  · intro h
    simp [construct, h]
  · intro hm hb
    simp [construct, not_le.mpr hm, hb]
  · intro hm hb hk
    simp [construct, not_le.mpr hm, not_lt.mpr hb, hk]
  · intro hm hb hk
    simp [construct, not_le.mpr hm, not_lt.mpr hb, not_lt.mpr hk]
  · intro m b k y0 v0
    exact ⟨by norm_num [mkSystem], rfl, rfl, rfl⟩

/-- C6 witness: mass 0 is rejected with the mass message, mass -1 is
rejected as well, and a valid configuration (the all-defaults one)
succeeds with state (1, 0, 0) and forcing none. -/
theorem construct_spec_witness :
    construct ⟨some 0, none, none, none, none⟩ = .error .invalidMass ∧
    construct ⟨some (-1), none, none, none, none⟩ = .error .invalidMass ∧
    construct ⟨none, none, none, none, none⟩ = .ok (mkSystem 1.0 0.1 1.0 1.0 0.0) := by
  refine ⟨?_, ?_, ?_⟩
  · exact (construct_spec ⟨some 0, none, none, none, none⟩).1 (by norm_num)
  · exact (construct_spec ⟨some (-1), none, none, none, none⟩).1 (by norm_num)
  · exact (construct_spec ⟨none, none, none, none, none⟩).2.2.2.1
      (by norm_num) (by norm_num) (by norm_num)

/-- C10: every configuration field is optional, with built-in defaults
m = 1.0, b = 0.1, k = 1.0, y0 = 1.0, v0 = 0.0: a valid configuration
builds the system from the supplied fields with omitted fields replaced
by those defaults; in particular the empty configuration succeeds and
yields getParameters = (1, 0.1, 1) and getState = (1, 0, 0). -/
theorem construct_defaults (cfg : Config) :
    (0 < cfg.m.getD 1.0 → 0 ≤ cfg.b.getD 0.1 → 0 ≤ cfg.k.getD 1.0 →
      construct cfg = .ok (mkSystem (cfg.m.getD 1.0) (cfg.b.getD 0.1) (cfg.k.getD 1.0)
        (cfg.y0.getD 1.0) (cfg.v0.getD 0.0))) ∧
    construct ⟨none, none, none, none, none⟩ = .ok (mkSystem 1.0 0.1 1.0 1.0 0.0) ∧
    getParameters (mkSystem 1.0 0.1 1.0 1.0 0.0) = (1.0, 0.1, 1.0) ∧
    getState (mkSystem 1.0 0.1 1.0 1.0 0.0) = ⟨1.0, 0.0, 0⟩ := by
  refine ⟨?_, ?_, rfl, by norm_num [getState, mkSystem]⟩
  · intro hm hb hk
    simp [construct, not_le.mpr hm, not_lt.mpr hb, not_lt.mpr hk]
  · simp [construct, mkSystem]
    norm_num

/-- C10 witness: a configuration supplying only the mass keeps the
built-in defaults for every omitted field. -/
theorem construct_defaults_witness :
    construct ⟨some 2, none, none, none, none⟩ = .ok (mkSystem 2 0.1 1.0 1.0 0.0) := by
  have h := (construct_defaults ⟨some 2, none, none, none, none⟩).1
    (by norm_num) (by norm_num) (by norm_num)
  simpa using h

end MassSpring

namespace MassSpring

/-- C5 counterexample: the name toString is not one of the seven
catalog keys, yet setForcing does not raise for it: the property read
presets[name] finds the inherited Object.prototype.toString, which is
truthy, so the guard does not fire and the selection is replaced (the
forcing name changes from none to toString). -/
theorem setForcing_toString_no_error :
    (¬ ("toString" = "none" ∨ "toString" = "constant" ∨ "toString" = "sine" ∨
        "toString" = "cosine" ∨ "toString" = "step" ∨ "toString" = "square" ∨
        "toString" = "impulse")) ∧
    (setForcing (mkSystem 1 0.1 1 1 0) "toString" noParams).1 = none ∧
    (setForcing (mkSystem 1 0.1 1 1 0) "toString" noParams).2.forcingName = "toString" ∧
    (mkSystem 1 0.1 1 1 0).forcingName = "none" := by
  have hpl : presetsLookupJs "toString" = some (StoredFn.protoFn "toString") := by decide
  refine ⟨by decide, ?_, ?_, rfl⟩ <;> rw [setForcing, hpl]

/-- C5 (amended): setForcing raises UnknownForcingPreset synchronously,
leaving the system and hence the selection observed through getForcing
unchanged, exactly when the property read presets[name] is falsy, i.e.
when the name is neither one of the seven catalog keys nor one of the
properties the presets object literal inherits from Object.prototype.
On a catalog key the selection is wholly replaced, with the resolved
parameters equal to the preset defaults shallow-merged with the
supplied parameters (caller values winning), independently of the
previous selection.  On an inherited Object.prototype name the call
also does not raise: it installs the inherited member as the forcing
function and the resolved parameters are a shallow copy of just the
supplied parameters. -/
theorem setForcing_spec (sys : System) (name : String) (params : Params) :
    ((presetLookup name).isSome ↔
      (name = "none" ∨ name = "constant" ∨ name = "sine" ∨ name = "cosine" ∨
       name = "step" ∨ name = "square" ∨ name = "impulse")) ∧
    ((presetsLookupJs name).isSome ↔
      ((name = "none" ∨ name = "constant" ∨ name = "sine" ∨ name = "cosine" ∨
        name = "step" ∨ name = "square" ∨ name = "impulse") ∨ name ∈ protoProps)) ∧
    (presetsLookupJs name = none →
      setForcing sys name params = (some (Err.unknownForcing name), sys) ∧
      getForcing (setForcing sys name params).2 = getForcing sys) ∧
    (∀ key, presetsLookupJs name = some (StoredFn.preset key) →
      setForcing sys name params =
        (none, { sys with
          forcingName := name
          forcingFn := StoredFn.preset key
          forcingParams := mergeParams (defaultParams key) params }) ∧
      (∀ pkey v, params pkey = some v →
        (setForcing sys name params).2.forcingParams pkey = some v) ∧
      (∀ pkey, params pkey = none →
        (setForcing sys name params).2.forcingParams pkey = defaultParams key pkey)) ∧
    (∀ pname, presetsLookupJs name = some (StoredFn.protoFn pname) →
      setForcing sys name params =
        (none, { sys with
          forcingName := name
          forcingFn := StoredFn.protoFn pname
          forcingParams := params })) := by
  have hkeys : (presetLookup name).isSome ↔
      (name = "none" ∨ name = "constant" ∨ name = "sine" ∨ name = "cosine" ∨
       name = "step" ∨ name = "square" ∨ name = "impulse") := by
    unfold presetLookup
    split_ifs with h1 h2 h3 h4 h5 h6 h7 <;> simp_all
  refine ⟨hkeys, ?_, ?_, ?_, ?_⟩
  · cases hpl : presetLookup name with
    | some key =>
      have hmem := hkeys.mp (by rw [hpl]; rfl)
      simp [presetsLookupJs, hpl, hmem]
    | none =>
      have hmem : ¬ (name = "none" ∨ name = "constant" ∨ name = "sine" ∨ name = "cosine" ∨
          name = "step" ∨ name = "square" ∨ name = "impulse") := by
        intro h
        have := hkeys.mpr h
        rw [hpl] at this
        simp at this
      simp only [presetsLookupJs, hpl]
      split_ifs with hp <;> simp [hmem, hp]
  · intro h
    rw [setForcing, h]
    exact ⟨rfl, rfl⟩
  · intro key h
    rw [setForcing, h]
    refine ⟨rfl, ?_, ?_⟩
    · intro pkey v hv
      simp [setForcing, h, mergeParams, hv]
    · intro pkey hv
      simp [setForcing, h, mergeParams, hv]
  · intro pname h
    rw [setForcing, h]

/-- C5 witness: selecting the sine preset with an amplitude override
replaces the selection, the override wins over the default amplitude,
and the default frequency is kept; the unknown name ramp fails and
leaves the system unchanged; the inherited name toString installs the
prototype member with the supplied parameters alone. -/
theorem setForcing_spec_witness :
    (setForcing (mkSystem 1 0.1 1 1 0) "sine"
        (fun pkey => if pkey = ParamKey.amplitude then some 3 else none)).2.forcingParams
        ParamKey.amplitude = some 3 ∧
    (setForcing (mkSystem 1 0.1 1 1 0) "sine"
        (fun pkey => if pkey = ParamKey.amplitude then some 3 else none)).2.forcingParams
        ParamKey.frequency = defaultParams FKey.sine ParamKey.frequency ∧
    setForcing (mkSystem 1 0.1 1 1 0) "ramp" noParams
      = (some (Err.unknownForcing "ramp"), mkSystem 1 0.1 1 1 0) ∧
    setForcing (mkSystem 1 0.1 1 1 0) "valueOf" noParams
      = (none, { mkSystem 1 0.1 1 1 0 with
          forcingName := "valueOf"
          forcingFn := StoredFn.protoFn "valueOf"
          forcingParams := noParams }) := by
  have hs := (setForcing_spec (mkSystem 1 0.1 1 1 0) "sine"
    (fun pkey => if pkey = ParamKey.amplitude then some 3 else none)).2.2.2.1 FKey.sine
    (by decide)
  have hu := ((setForcing_spec (mkSystem 1 0.1 1 1 0) "ramp" noParams).2.2.1 (by decide)).1
  have hp := (setForcing_spec (mkSystem 1 0.1 1 1 0) "valueOf" noParams).2.2.2.2 "valueOf"
    (by decide)
  exact ⟨hs.2.1 ParamKey.amplitude 3 (by simp), hs.2.2 ParamKey.frequency (by simp), hu, hp⟩

/-- C2 counterexample: for the valid system with mass 1, damping 0 and
spring constant 0, the discriminant is 0, so the regime is critical (not
underdamped), and both the damping ratio and the quality factor are the
JavaScript result of 0/0, namely NaN (not 0 and not positive infinity),
refuting the claim for this zero-damping system. -/
theorem systemProperties_zero_damping_zero_stiffness :
    (mkSystem 1 0 0 1 0).b = 0 ∧
    (getSystemProperties (mkSystem 1 0 0 1 0)).regime = Regime.critical ∧
    (getSystemProperties (mkSystem 1 0 0 1 0)).regime ≠ Regime.underdamped ∧
    (getSystemProperties (mkSystem 1 0 0 1 0)).zeta = JVal.nan ∧
    (getSystemProperties (mkSystem 1 0 0 1 0)).Q = JVal.nan := by
  have habs : |(0 : ℝ) * 0 - 4 * 1 * 0| < 1e-10 := by norm_num
  refine ⟨rfl, ?_, ?_, ?_, ?_⟩ <;>
    simp [getSystemProperties, mkSystem, jsDiv, habs, Real.sqrt_zero] <;> norm_num

/-- C2 (amended): for every system with mass > 0, damping >= 0 and
springConstant >= 0, getSystemProperties returns omega0 = sqrt(k/m),
zeta = b/(2*sqrt(m*k)) and Q = sqrt(m*k)/b as JavaScript divisions, and
classifies the regime from d = b^2 - 4mk with tolerance 1e-10; when
damping = 0 and additionally 4*m*k exceeds the tolerance, it returns
zeta = 0, regime = underdamped and Q = positive infinity. -/
theorem systemProperties_spec (sys : System)
    (hm : 0 < sys.m) (hb : 0 ≤ sys.b) (hk : 0 ≤ sys.k) :
    (getSystemProperties sys).omega0 = Real.sqrt (sys.k / sys.m) ∧
    (getSystemProperties sys).zeta = jsDiv sys.b (2 * Real.sqrt (sys.m * sys.k)) ∧
    (getSystemProperties sys).Q = jsDiv (Real.sqrt (sys.m * sys.k)) sys.b ∧
    (|sys.b * sys.b - 4 * sys.m * sys.k| < 1e-10 →
      (getSystemProperties sys).regime = Regime.critical) ∧
    (sys.b * sys.b - 4 * sys.m * sys.k > 1e-10 →
      (getSystemProperties sys).regime = Regime.overdamped) ∧
    (sys.b * sys.b - 4 * sys.m * sys.k < -(1e-10) →
      (getSystemProperties sys).regime = Regime.underdamped) ∧
    (sys.b = 0 → 4 * sys.m * sys.k > 1e-10 →
      (getSystemProperties sys).zeta = JVal.num 0 ∧
      (getSystemProperties sys).regime = Regime.underdamped ∧
      (getSystemProperties sys).Q = JVal.posInf) := by
  refine ⟨rfl, rfl, rfl, ?_, ?_, ?_, ?_⟩
  · intro h
    simp [getSystemProperties, h]
  · intro h
    have h1 : ¬ |sys.b * sys.b - 4 * sys.m * sys.k| < 1e-10 := by
      rw [not_lt]
      calc (1e-10 : ℝ) ≤ sys.b * sys.b - 4 * sys.m * sys.k := le_of_lt h
        _ ≤ |sys.b * sys.b - 4 * sys.m * sys.k| := le_abs_self _
    have h2 : sys.b * sys.b - 4 * sys.m * sys.k > 0 := by
      have : (0 : ℝ) < 1e-10 := by norm_num
      linarith
    simp [getSystemProperties, h1, h2]
  · intro h
    have h1 : ¬ |sys.b * sys.b - 4 * sys.m * sys.k| < 1e-10 := by
      rw [not_lt, abs_sub_comm]
      calc (1e-10 : ℝ) ≤ 4 * sys.m * sys.k - sys.b * sys.b := by linarith
        _ ≤ |4 * sys.m * sys.k - sys.b * sys.b| := le_abs_self _
    have h2 : ¬ sys.b * sys.b - 4 * sys.m * sys.k > 0 := by
      have : (0 : ℝ) < 1e-10 := by norm_num
      linarith
    simp [getSystemProperties, h1, h2]
  · intro hb0 hmk
    have hmkpos : 0 < sys.m * sys.k := by nlinarith
    have hsq : 0 < Real.sqrt (sys.m * sys.k) := Real.sqrt_pos.mpr hmkpos
    have hdisc : sys.b * sys.b - 4 * sys.m * sys.k < -(1e-10) := by
      rw [hb0]
      linarith
    refine ⟨?_, ?_, ?_⟩
    · have hne : (2 : ℝ) * Real.sqrt (sys.m * sys.k) ≠ 0 := by positivity
      simp [getSystemProperties, jsDiv, hb0, hne]
    · have h1 : ¬ |sys.b * sys.b - 4 * sys.m * sys.k| < 1e-10 := by
        rw [not_lt, abs_sub_comm]
        calc (1e-10 : ℝ) ≤ 4 * sys.m * sys.k - sys.b * sys.b := by nlinarith
          _ ≤ |4 * sys.m * sys.k - sys.b * sys.b| := le_abs_self _
      have h2 : ¬ sys.b * sys.b - 4 * sys.m * sys.k > 0 := by
        have : (0 : ℝ) < 1e-10 := by norm_num
        linarith
      simp [getSystemProperties, h1, h2]
    · simp [getSystemProperties, jsDiv, hb0, hsq, ne_of_gt hsq]

/-- C2 witness: the undamped unit system (m = 1, b = 0, k = 1) has
zeta = 0, regime underdamped and Q = positive infinity. -/
theorem systemProperties_spec_witness :
    (getSystemProperties (mkSystem 1 0 1 1 0)).zeta = JVal.num 0 ∧
    (getSystemProperties (mkSystem 1 0 1 1 0)).regime = Regime.underdamped ∧
    (getSystemProperties (mkSystem 1 0 1 1 0)).Q = JVal.posInf := by
  have h := systemProperties_spec (mkSystem 1 0 1 1 0)
    (by norm_num [mkSystem]) (by norm_num [mkSystem]) (by norm_num [mkSystem])
  exact h.2.2.2.2.2.2 rfl (by norm_num [mkSystem])

end MassSpring

namespace MassSpring

/-- Catalog formula for the square preset as the specification words it,
with "t mod period" read as the mathematical modulus, whose result lies
in [0, period) for a positive period. -/
noncomputable def squareSpecFormula (t amplitude frequency : ℝ) : ℝ :=
  let period := 1 / frequency
  let phase := (t - period * (⌊t / period⌋ : ℝ)) / period
  amplitude * (if phase < 0.5 then 1 else -1)

/-- C8 counterexample: at t = -1/4 with the square preset's resolved
default parameters (amplitude 1, frequency 1, period 1), the code uses
the JavaScript remainder, whose result keeps the sign of t, giving phase
-1/4 and output +1; the claimed catalog formula with the mathematical
modulus gives phase 3/4 and output -1. -/
theorem square_mod_mismatch :
    applyForcing FKey.square (-(1/4)) (mergeParams (defaultParams FKey.square) noParams) = 1 ∧
    squareSpecFormula (-(1/4)) 1 1 = -1 ∧
    applyForcing FKey.square (-(1/4)) (mergeParams (defaultParams FKey.square) noParams)
      ≠ squareSpecFormula (-(1/4)) 1 1 := by
  have hj : jsRem (-(1/4) : ℝ) (1 / (1.0 : ℝ)) = -(1/4) := by
    unfold jsRem jsTrunc
    have hx : (-(1/4) : ℝ) / (1 / (1.0 : ℝ)) = -(1/4) := by norm_num
    rw [hx, if_neg (by norm_num : ¬ (0 ≤ (-(1/4) : ℝ)))]
    have hc : ⌈(-(1/4) : ℝ)⌉ = 0 := by norm_num
    rw [hc]
    norm_num
  have e1 : applyForcing FKey.square (-(1/4))
      (mergeParams (defaultParams FKey.square) noParams) = 1 := by
    simp only [applyForcing, mergeParams, defaultParams, noParams, Option.getD_some, hj]
    rw [if_pos (by norm_num)]
    norm_num
  have e2 : squareSpecFormula (-(1/4)) 1 1 = -1 := by
    simp only [squareSpecFormula]
    have hx : (-(1/4) : ℝ) / (1 / 1) = -(1/4) := by norm_num
    rw [hx]
    have hf : ⌊(-(1/4) : ℝ)⌋ = -1 := by norm_num
    rw [hf, if_neg (by norm_num)]
    norm_num
  exact ⟨e1, e2, by rw [e1, e2]; norm_num⟩

/-- C8 (amended): each catalog preset evaluated at its resolved default
parameters returns the catalog formula for every real t, with the square
wave phase computed by the JavaScript remainder (sign of t) rather than
the mathematical modulus; for t >= 0 the two agree, so the originally
claimed square formula is recovered there.  The resolved default
parameter set of each preset equals the defaults of the catalog table. -/
theorem forcing_catalog_spec (t : ℝ) :
    applyForcing FKey.none t (mergeParams (defaultParams FKey.none) noParams) = 0 ∧
    applyForcing FKey.constant t (mergeParams (defaultParams FKey.constant) noParams) = 1 ∧
    applyForcing FKey.sine t (mergeParams (defaultParams FKey.sine) noParams)
      = 1 * Real.sin (2 * Real.pi * 1 * t) ∧
    applyForcing FKey.cosine t (mergeParams (defaultParams FKey.cosine) noParams)
      = 1 * Real.cos (2 * Real.pi * 1 * t) ∧
    (t ≥ 1 → applyForcing FKey.step t (mergeParams (defaultParams FKey.step) noParams) = 1) ∧
    (t < 1 → applyForcing FKey.step t (mergeParams (defaultParams FKey.step) noParams) = 0) ∧
    applyForcing FKey.square t (mergeParams (defaultParams FKey.square) noParams)
      = 1 * (if jsRem t 1 / 1 < 0.5 then 1 else -1) ∧
    (0 ≤ t → applyForcing FKey.square t (mergeParams (defaultParams FKey.square) noParams)
      = squareSpecFormula t 1 1) ∧
    (1 ≤ t ∧ t < 1 + 0.01 →
      applyForcing FKey.impulse t (mergeParams (defaultParams FKey.impulse) noParams) = 100) ∧
    (¬ (1 ≤ t ∧ t < 1 + 0.01) →
      applyForcing FKey.impulse t (mergeParams (defaultParams FKey.impulse) noParams) = 0) ∧
    (∀ key, defaultParams FKey.none key = none) ∧
    (∀ key, defaultParams FKey.constant key =
      if key = ParamKey.force then some 1 else none) ∧
    (∀ key, defaultParams FKey.sine key =
      if key = ParamKey.amplitude then some 1
      else if key = ParamKey.frequency then some 1 else none) ∧
    (∀ key, defaultParams FKey.cosine key =
      if key = ParamKey.amplitude then some 1
      else if key = ParamKey.frequency then some 1 else none) ∧
    (∀ key, defaultParams FKey.step key =
      if key = ParamKey.amplitude then some 1
      else if key = ParamKey.stepTime then some 1 else none) ∧
    (∀ key, defaultParams FKey.square key =
      if key = ParamKey.amplitude then some 1
      else if key = ParamKey.frequency then some 1 else none) ∧
    (∀ key, defaultParams FKey.impulse key =
      if key = ParamKey.amplitude then some 1
      else if key = ParamKey.impulseTime then some 1
      else if key = ParamKey.width then some 0.01 else none) := by
  have h10 : (1.0 : ℝ)= 1 := by norm_num
  have h11 : (1 : ℝ) / (1.0 : ℝ) = 1 := by norm_num
  have h1d : (1 : ℝ) / (1 : ℝ) = 1 := by norm_num
  refine ⟨rfl, ?_, ?_, ?_, ?_, ?_, ?_, ?_, ?_, ?_, ?_, ?_, ?_, ?_, ?_, ?_, ?_⟩
  · simp only [applyForcing, mergeParams, defaultParams, noParams, Option.getD_some, h10]
  · simp only [applyForcing, mergeParams, defaultParams, noParams, Option.getD_some, h10]
  · simp only [applyForcing, mergeParams, defaultParams, noParams, Option.getD_some, h10]
  · intro h
    simp only [applyForcing, mergeParams, defaultParams, noParams, Option.getD_some, h10]
    rw [if_pos h]
  · intro h
    simp only [applyForcing, mergeParams, defaultParams, noParams, Option.getD_some, h10]
    rw [if_neg (not_le.mpr h)]
  · simp only [applyForcing, mergeParams, defaultParams, noParams, Option.getD_some, h10, h11,
      h1d]
  · intro ht
    have hkey : jsRem t 1 = t - 1 * (⌊t / 1⌋ : ℝ) := by
      unfold jsRem jsTrunc
      rw [if_pos (by simpa using ht)]
    simp only [applyForcing, squareSpecFormula, mergeParams, defaultParams, noParams,
      Option.getD_some, h10, h11, h1d, hkey]
  · rintro ⟨h1, h2⟩
    have h001 : (0.01 : ℝ) = 1/100 := by norm_num
    simp only [applyForcing, mergeParams, defaultParams, noParams, Option.getD_some, h10, h001]
    rw [if_pos ⟨by linarith, by linarith⟩]
    norm_num
  · intro h
    have h001 : (0.01 : ℝ) = 1/100 := by norm_num
    simp only [applyForcing, mergeParams, defaultParams, noParams, Option.getD_some, h10, h001]
    rw [if_neg (by
      intro hc
      exact h ⟨hc.1, by linarith [hc.2]⟩)]
  · intro key; rfl
  · intro key; cases key <;> simp [defaultParams] <;> norm_num
  · intro key; cases key <;> simp [defaultParams] <;> norm_num
  · intro key; cases key <;> simp [defaultParams] <;> norm_num
  · intro key; cases key <;> simp [defaultParams] <;> norm_num
  · intro key; cases key <;> simp [defaultParams] <;> norm_num
  · intro key; cases key <;> simp [defaultParams] <;> norm_num

/-- C8 witness: concrete instances of the hypothesis-guarded conjuncts:
the step preset at t = 2 (inside the active window) gives 1 and at t = 0
gives 0, and the impulse preset at t = 0 (outside its window) gives 0. -/
theorem forcing_catalog_spec_witness :
    applyForcing FKey.step 2 (mergeParams (defaultParams FKey.step) noParams) = 1 ∧
    applyForcing FKey.step 0 (mergeParams (defaultParams FKey.step) noParams) = 0 ∧
    applyForcing FKey.impulse 0 (mergeParams (defaultParams FKey.impulse) noParams) = 0 := by
  refine ⟨(forcing_catalog_spec 2).2.2.2.2.1 (by norm_num),
    (forcing_catalog_spec 0).2.2.2.2.2.1 (by norm_num),
    (forcing_catalog_spec 0).2.2.2.2.2.2.2.2.2.1 (by norm_num)⟩

end MassSpring

namespace MassSpring

/-- Cosine-like entry of the RK4 one-step matrix for the undamped unit
oscillator: the degree-4 Taylor polynomial of cos at the step size. -/
noncomputable def rkC (h : ℝ) : ℝ := 1 - h ^ 2 / 2 + h ^ 4 / 24

/-- Sine-like entry of the RK4 one-step matrix for the undamped unit
oscillator: the degree-3 Taylor polynomial of sin at the step size. -/
noncomputable def rkS (h : ℝ) : ℝ := h - h ^ 3 / 6

/-- The RK4 one-step map of the undamped unit oscillator, packaged as
multiplication by this complex number on y + v*i. -/
noncomputable def rkA (h : ℝ) : ℂ := ⟨rkC h, -rkS h⟩

/-- The exact one-step propagator of the undamped unit oscillator on
y + v*i, a rotation by the step size. -/
noncomputable def rkE : ℂ := Complex.exp (((-(1/100) : ℝ) : ℂ) * Complex.I)

lemma shm_step_state (sys : System) (h : ℝ)
    (hm : sys.m = 1) (hb : sys.b = 0) (hk : sys.k = 1) (hf : sys.forcingFn = StoredFn.preset FKey.none) :
    (step sys h).1.state =
      ⟨rkC h * sys.state.y + rkS h * sys.state.v,
       rkC h * sys.state.v - rkS h * sys.state.y,
       sys.state.t + h⟩ := by
  simp only [step, rk4Step, computeDerivatives, hm, hb, hk, hf, storedForce, applyForcing,
    State.mk.injEq, rkC, rkS]
  refine ⟨by ring, by ring, trivial⟩

lemma stepsN_fields (sys : System) (dt : ℝ) :
    ∀ n, (stepsN sys dt n).m = sys.m ∧ (stepsN sys dt n).b = sys.b ∧
      (stepsN sys dt n).k = sys.k ∧ (stepsN sys dt n).forcingFn = sys.forcingFn
  | 0 => ⟨rfl, rfl, rfl, rfl⟩
  | n + 1 => stepsN_fields sys dt n

lemma stepsN_shm (h : ℝ) (n : ℕ) :
    (stepsN (mkSystem 1 0 1 1 0) h n).state.y = (rkA h ^ n).re ∧
    (stepsN (mkSystem 1 0 1 1 0) h n).state.v = (rkA h ^ n).im ∧
    (stepsN (mkSystem 1 0 1 1 0) h n).state.t = (n : ℝ) * h := by
  induction n with
  | zero =>
    refine ⟨by simp [stepsN, mkSystem], by simp [stepsN, mkSystem], by
      norm_num [stepsN, mkSystem]⟩
  | succ n ih =>
    obtain ⟨hy, hv, ht⟩ := ih
    obtain ⟨f1, f2, f3, f4⟩ := stepsN_fields (mkSystem 1 0 1 1 0) h n
    have hs := shm_step_state (stepsN (mkSystem 1 0 1 1 0) h n) h f1 f2 f3 f4
    have hstep : stepsN (mkSystem 1 0 1 1 0) h (n + 1)
        = (step (stepsN (mkSystem 1 0 1 1 0) h n) h).1 := rfl
    rw [hstep, hs]
    refine ⟨?_, ?_, ?_⟩
    · show rkC h * (stepsN (mkSystem 1 0 1 1 0) h n).state.y +
        rkS h * (stepsN (mkSystem 1 0 1 1 0) h n).state.v = (rkA h ^ (n + 1)).re
      rw [hy, hv, pow_succ, Complex.mul_re]
      simp only [rkA]
      ring
    · show rkC h * (stepsN (mkSystem 1 0 1 1 0) h n).state.v -
        rkS h * (stepsN (mkSystem 1 0 1 1 0) h n).state.y = (rkA h ^ (n + 1)).im
      rw [hy, hv, pow_succ, Complex.mul_im]
      simp only [rkA]
      ring
    · show (stepsN (mkSystem 1 0 1 1 0) h n).state.t + h = ((n + 1 : ℕ) : ℝ) * h
      rw [ht]
      push_cast
      ring

end MassSpring

namespace MassSpring

lemma rkA_abs_le_one : Complex.abs (rkA (1/100)) ≤ 1 := by
  rw [Complex.abs_apply, Real.sqrt_le_one]
  have h : Complex.normSq (rkA (1/100)) =
      rkC (1/100) * rkC (1/100) + (-rkS (1/100)) * (-rkS (1/100)) := by
    simp [rkA, Complex.normSq_mk]
  rw [h]
  norm_num [rkC, rkS]

lemma rkE_abs : Complex.abs rkE = 1 := Complex.abs_exp_ofReal_mul_I _

lemma rkE_pow_re (n : ℕ) : (rkE ^ n).re = Real.cos ((n : ℝ) * (1/100)) := by
  have h1 : rkE ^ n = Complex.exp (((-((n : ℝ) * (1/100)) : ℝ) : ℂ) * Complex.I) := by
    rw [rkE, ← Complex.exp_nat_mul]
    congr 1
    push_cast
    ring
  rw [h1, Complex.exp_ofReal_mul_I_re, Real.cos_neg]

lemma rkA_sub_rkE_bound : Complex.abs (rkA (1/100) - rkE) ≤ 7/48 * (1/100)^4 := by
  have hx : |(1/100 : ℝ)| ≤ 1 := by rw [abs_of_pos] <;> norm_num
  have hcos := Real.cos_bound hx
  have hsin := Real.sin_bound hx
  have hEre : rkE.re = Real.cos (1/100) := by
    rw [rkE, Complex.exp_ofReal_mul_I_re]
    norm_num [Real.cos_neg]
  have hEim : rkE.im = -Real.sin (1/100) := by
    rw [rkE, Complex.exp_ofReal_mul_I_im]
    norm_num [Real.sin_neg]
  have hre : (rkA (1/100) - rkE).re = rkC (1/100) - Real.cos (1/100) := by
    rw [Complex.sub_re, hEre]
    rfl
  have him : (rkA (1/100) - rkE).im = Real.sin (1/100) - rkS (1/100) := by
    rw [Complex.sub_im, hEim]
    show -rkS (1/100) - -Real.sin (1/100) = Real.sin (1/100) - rkS (1/100)
    ring
  have hre_bound : |(rkA (1/100) - rkE).re| ≤ 3/32 * (1/100)^4 := by
    rw [hre]
    have hsplit : rkC (1/100) - Real.cos (1/100) =
        ((1 - (1/100)^2/2) - Real.cos (1/100)) + (1/100)^4/24 := by
      rw [rkC]; ring
    rw [hsplit]
    calc |((1 - (1/100)^2/2) - Real.cos (1/100)) + (1/100)^4/24|
        ≤ |(1 - (1/100)^2/2) - Real.cos (1/100)| + |((1:ℝ)/100)^4/24| := abs_add _ _
      _ ≤ |(1/100:ℝ)|^4 * (5/96) + |((1:ℝ)/100)^4/24| := by
          rw [abs_sub_comm]
          exact add_le_add_right hcos _
      _ ≤ 3/32 * (1/100)^4 := by
          rw [abs_of_pos (by norm_num : (0:ℝ) < 1/100), abs_of_pos (by positivity)]
          norm_num
  have him_bound : |(rkA (1/100) - rkE).im| ≤ 5/96 * (1/100)^4 := by
    rw [him]
    calc |Real.sin (1/100) - rkS (1/100)| = |Real.sin (1/100) - ((1/100) - (1/100)^3/6)| := by
          rw [rkS]
      _ ≤ |(1/100:ℝ)|^4 * (5/96) := hsin
      _ ≤ 5/96 * (1/100)^4 := by
          rw [abs_of_pos (by norm_num : (0:ℝ) < 1/100)]
          norm_num
  calc Complex.abs (rkA (1/100) - rkE)
      ≤ |(rkA (1/100) - rkE).re| + |(rkA (1/100) - rkE).im| :=
        Complex.abs_le_abs_re_add_abs_im _
    _ ≤ 3/32 * (1/100)^4 + 5/96 * (1/100)^4 := add_le_add hre_bound him_bound
    _ ≤ 7/48 * (1/100)^4 := by norm_num

lemma rkA_pow_sub_bound (n : ℕ) :
    Complex.abs (rkA (1/100) ^ n - rkE ^ n) ≤ (n : ℝ) * (7/48 * (1/100)^4) := by
  induction n with
  | zero => simp
  | succ n ih =>
    have key : rkA (1/100) ^ (n + 1) - rkE ^ (n + 1)
        = rkA (1/100) * (rkA (1/100) ^ n - rkE ^ n) + (rkA (1/100) - rkE) * rkE ^ n := by
      ring
    rw [key]
    have h1 := Complex.abs.add_le (rkA (1/100) * (rkA (1/100) ^ n - rkE ^ n))
      ((rkA (1/100) - rkE) * rkE ^ n)
    rw [map_mul, map_mul] at h1
    have hEn : Complex.abs (rkE ^ n) = 1 := by rw [map_pow, rkE_abs, one_pow]
    have hnn : (0:ℝ) ≤ Complex.abs (rkA (1/100) ^ n - rkE ^ n) := Complex.abs.nonneg _
    calc Complex.abs (rkA (1/100) * (rkA (1/100) ^ n - rkE ^ n)
          + (rkA (1/100) - rkE) * rkE ^ n)
        ≤ Complex.abs (rkA (1/100)) * Complex.abs (rkA (1/100) ^ n - rkE ^ n)
          + Complex.abs (rkA (1/100) - rkE) * Complex.abs (rkE ^ n) := h1
      _ ≤ 1 * ((n : ℝ) * (7/48 * (1/100)^4)) + (7/48 * (1/100)^4) * 1 := by
          apply add_le_add
          · exact mul_le_mul rkA_abs_le_one ih hnn zero_le_one
          · rw [hEn]
            exact mul_le_mul_of_nonneg_right rkA_sub_rkE_bound zero_le_one
      _ = ((n : ℕ) + 1 : ℝ) * (7/48 * (1/100)^4) := by ring
      _ = ((n + 1 : ℕ) : ℝ) * (7/48 * (1/100)^4) := by push_cast; ring

/-- C9: for the unforced, undamped unit system (m = 1, b = 0, k = 1,
y0 = 1, v0 = 0) stepped repeatedly with dt = 0.01, at every step count n
whose sampled time n*dt is at most ten oscillation periods (10*2*pi),
the time equals n*dt exactly and the computed position is within 0.001
of the analytical solution cos(t). -/
theorem rk4_shm_accuracy (n : ℕ)
    (hn : (n : ℝ) * 0.01 ≤ 10 * (2 * Real.pi)) :
    (stepsN (mkSystem 1 0 1 1 0) 0.01 n).state.t = (n : ℝ) * 0.01 ∧
    |(stepsN (mkSystem 1 0 1 1 0) 0.01 n).state.y - Real.cos ((n : ℝ) * 0.01)| < 0.001 := by
  have h001 : (0.01 : ℝ) = 1/100 := by norm_num
  rw [h001] at hn ⊢
  obtain ⟨hy, hv, ht⟩ := stepsN_shm (1/100) n
  refine ⟨ht, ?_⟩
  rw [hy, ← rkE_pow_re n]
  have h1 : (rkA (1/100) ^ n).re - (rkE ^ n).re = (rkA (1/100) ^ n - rkE ^ n).re := by
    rw [Complex.sub_re]
  rw [h1]
  have h2 : |(rkA (1/100) ^ n - rkE ^ n).re| ≤ Complex.abs (rkA (1/100) ^ n - rkE ^ n) :=
    Complex.abs_re_le_abs _
  have h3 := rkA_pow_sub_bound n
  have hnb : (n : ℝ) ≤ 2000 * Real.pi := by linarith
  have hpi : Real.pi < 3.141593 := Real.pi_lt_d6
  have hn2 : (n : ℝ) ≤ 6283.186 := by nlinarith
  have h4 : (n : ℝ) * (7/48 * (1/100)^4) ≤ 6283.186 * (7/48 * (1/100)^4) :=
    mul_le_mul_of_nonneg_right hn2 (by norm_num)
  calc |(rkA (1/100) ^ n - rkE ^ n).re|
      ≤ Complex.abs (rkA (1/100) ^ n - rkE ^ n) := h2
    _ ≤ (n : ℝ) * (7/48 * (1/100)^4) := h3
    _ ≤ 6283.186 * (7/48 * (1/100)^4) := h4
    _ < 0.001 := by norm_num

/-- C9 witness: the bound instantiated at step count 0: the sampled time
is 0 and the position 1 is within 0.001 of cos 0. -/
theorem rk4_shm_accuracy_witness :
    (stepsN (mkSystem 1 0 1 1 0) 0.01 0).state.t = ((0 : ℕ) : ℝ) * 0.01 ∧
    |(stepsN (mkSystem 1 0 1 1 0) 0.01 0).state.y - Real.cos (((0 : ℕ) : ℝ) * 0.01)| < 0.001 := by
  refine rk4_shm_accuracy 0 ?_
  have hpi := Real.pi_pos
  push_cast
  nlinarith

end MassSpring
